import Mathlib

/-!
Verification development for the crypto-risk-agent repository.

Shallow embedding of the risk scoring and aggregation engine
(src/analyzer.ts), the DexScreener response mapping (src/dexscreener.ts)
and the orchestrator's empty-wallet path (src/index.ts).

Modelling conventions:
* TypeScript `number` values are embedded as `ℚ` (the engine only ever
  performs exact decimal arithmetic on them); risk scores, which the code
  and data model keep as integers in [0,100], are embedded as `ℤ`.
* `Map<string, T | null>` lookups (`map.get(k) || null`) are embedded as
  functions `String → Option T`; `map.get(k) || false` as
  `(m k).getD false`.
* ES2019 `Array.prototype.sort` is guaranteed stable; it is embedded as a
  stable insertion sort on the comparator's key.
* The human-readable flag / recommendation / summary strings carry their
  numeric parameters in constructors instead of rendered text; the string
  rendering itself (emoji, `toFixed`) is presentation only and is not
  modelled, except that `toFixed(0)` on a percentage is modelled by
  `round` (both round half toward +∞ for the non-negative values involved).
-/

namespace CryptoRiskAgent

/-- src/types.ts `TokenHolding`. -/
structure TokenHolding where
  contractAddress : String
  tokenName : String
  tokenSymbol : String
  balance : String
  decimals : ℕ
  usdValue : Option ℚ
  deriving DecidableEq

/-- src/dexscreener.ts `DexTokenData`. -/
structure DexTokenData where
  symbol : String
  priceUsd : ℚ
  liquidityUsd : ℚ
  marketCapUsd : ℚ
  volume24h : ℚ
  priceChange24h : ℚ
  hasLiquidityLock : Bool
  dexUrl : String
  deriving DecidableEq

/-- The per-token flag strings pushed by `scoreTokenRisk`, with their numeric
parameters (string rendering abstracted). -/
inductive TokenFlag where
  | unverifiedContract
  | noDexData
  | criticallyLowLiquidity (amount : ℚ)
  | lowLiquidity (amount : ℚ)
  | noLiquidityLock
  | highPriceChange (change : ℚ)
  | extremeConcentration (pct : ℚ)
  | highConcentration (pct : ℚ)
  deriving DecidableEq

/-- src/types.ts `TokenRisk`. -/
structure TokenRisk where
  symbol : String
  contractAddress : String
  portfolioPercentage : ℚ
  liquidityUsd : ℚ
  isContractVerified : Bool
  hasLiquidityLock : Bool
  riskScore : ℤ
  flags : List TokenFlag
  deriving DecidableEq

/-- src/types.ts `RiskReport.riskLevel`. -/
inductive RiskLevel where
  | LOW
  | MEDIUM
  | HIGH
  | CRITICAL
  deriving DecidableEq

/-- src/types.ts `RiskReport.flags`. -/
structure PortfolioFlags where
  concentrationRisk : Bool
  rugPullRisk : Bool
  lowLiquidityRisk : Bool
  highVolatilityRisk : Bool
  deriving DecidableEq

/-- The recommendation strings pushed by `buildRecommendations` (and the
empty-wallet recommendation from src/index.ts), with their data parameters
(string rendering abstracted). -/
inductive Advisory where
  | reduceHighRisk (symbols : List String)
  | unverifiedContracts (count : ℕ) (symbols : List String)
  | lowLiquidityExit (symbols : List String)
  | diversify (symbol : String) (roundedPct : ℤ)
  | looksSafe
  | noTokensFound
  deriving DecidableEq

/-- The summary paragraph built by `buildSummary` (and the empty-wallet
summary from src/index.ts), with its data parameters (string template
abstracted). -/
inductive Summary where
  | standard (walletAddress : String) (riskLevel : RiskLevel) (overallScore : ℤ)
      (tokenCount : ℕ) (topRisk : Option (String × ℤ))
  | noHoldings (walletAddress : String)
  deriving DecidableEq

/-- src/types.ts `RiskReport`. -/
structure RiskReport where
  walletAddress : String
  analyzedAt : String
  chainId : ℕ
  chainName : String
  totalTokensFound : ℕ
  estimatedPortfolioUsd : ℚ
  overallRiskScore : ℤ
  riskLevel : RiskLevel
  tokenRisks : List TokenRisk
  flags : PortfolioFlags
  summary : Summary
  recommendations : List Advisory
  deriving DecidableEq

/-- One step of the stable descending sort: insert `x` in front of the first
element whose key is ≤ `key x`.  Since the list being inserted into always
consists of elements occurring later in the original input, an element is
placed before an equal-key element exactly when it occurred earlier — the
stability guarantee of ES2019 `Array.prototype.sort`. -/
def insertDesc {α β : Type} [LinearOrder β] (key : α → β) (x : α) : List α → List α
  | [] => [x]
  | y :: l => if key y ≤ key x then x :: y :: l else y :: insertDesc key x l

/-- Stable sort by `key`, descending; models `arr.sort((a, b) => key(b) - key(a))`. -/
def sortDesc {α β : Type} [LinearOrder β] (key : α → β) : List α → List α
  | [] => []
  | x :: l => insertDesc key x (sortDesc key l)

/-- src/analyzer.ts `scoreTokenRisk`: score a single token's risk.  The
accumulating `riskScore +=` / `flags.push` statements are embedded as the
sequential lets below. -/
def scoreTokenRisk (holding : TokenHolding) (portfolioPercent : ℚ)
    (dexData : Option DexTokenData) (isVerified : Bool) : TokenRisk :=
  -- Contract verification
  let score1 : ℤ := if isVerified then 0 else 0 + 30
  let flags1 : List TokenFlag := if isVerified then [] else [TokenFlag.unverifiedContract]
  -- Liquidity checks
  let score2 : ℤ :=
    match dexData with
    | none => score1 + 25
    | some dex =>
        let sLiq : ℤ :=
          if dex.liquidityUsd < 10000 then score1 + 35
          else if dex.liquidityUsd < 50000 then score1 + 20
          else if dex.liquidityUsd < 500000 then score1 + 5
          else score1
        let sLock : ℤ := if dex.hasLiquidityLock then sLiq else sLiq + 15
        if 30 < |dex.priceChange24h| then sLock + 10 else sLock
  let flags2 : List TokenFlag :=
    match dexData with
    | none => flags1 ++ [TokenFlag.noDexData]
    | some dex =>
        let fLiq : List TokenFlag :=
          if dex.liquidityUsd < 10000 then flags1 ++ [TokenFlag.criticallyLowLiquidity dex.liquidityUsd]
          else if dex.liquidityUsd < 50000 then flags1 ++ [TokenFlag.lowLiquidity dex.liquidityUsd]
          else flags1
        let fLock : List TokenFlag := if dex.hasLiquidityLock then fLiq else fLiq ++ [TokenFlag.noLiquidityLock]
        if 30 < |dex.priceChange24h| then fLock ++ [TokenFlag.highPriceChange dex.priceChange24h] else fLock
  -- Concentration risk
  let score3 : ℤ :=
    if 70 < portfolioPercent then score2 + 20
    else if 50 < portfolioPercent then score2 + 10
    else score2
  let flags3 : List TokenFlag :=
    if 70 < portfolioPercent then flags2 ++ [TokenFlag.extremeConcentration portfolioPercent]
    else if 50 < portfolioPercent then flags2 ++ [TokenFlag.highConcentration portfolioPercent]
    else flags2
  -- Cap at 100
  { symbol := holding.tokenSymbol
    contractAddress := holding.contractAddress
    portfolioPercentage := portfolioPercent
    liquidityUsd := (dexData.map DexTokenData.liquidityUsd).getD 0
    isContractVerified := isVerified
    hasLiquidityLock := (dexData.map DexTokenData.hasLiquidityLock).getD false
    riskScore := min 100 score3
    flags := flags3 }

/-- The per-holding portfolio-percentage expression inside
src/analyzer.ts `buildRiskReport` (the `estimatedPortfolioUsd > 0 &&
holding.usdValue ? ... : 100 / holdings.length` conditional).  A present
usdValue equal to 0 is falsy in JS, hence takes the fallback branch. -/
def portfolioPercentOf (estimatedPortfolioUsd : ℚ) (numHoldings : ℕ)
    (holding : TokenHolding) : ℚ :=
  match holding.usdValue with
  | some v =>
      if 0 < estimatedPortfolioUsd ∧ v ≠ 0 then v / estimatedPortfolioUsd * 100
      else 100 / (numHoldings : ℚ)
  | none => 100 / (numHoldings : ℚ)

/-- The `holdings.map(...)` building the per-token risks inside
src/analyzer.ts `buildRiskReport`. -/
def tokenRisksOf (holdings : List TokenHolding) (dexDataMap : String → Option DexTokenData)
    (verifiedMap : String → Option Bool) (estimatedPortfolioUsd : ℚ) : List TokenRisk :=
  holdings.map fun holding =>
    scoreTokenRisk holding
      (portfolioPercentOf estimatedPortfolioUsd holdings.length holding)
      (dexDataMap holding.contractAddress)
      ((verifiedMap holding.contractAddress).getD false)

/-- The overall-risk-score computation inside src/analyzer.ts
`buildRiskReport`, applied to the already-sorted TokenRisk list:
average (guarded to 0 on empty), max taken as the first sorted entry via
optional indexing (`tokenRisks[0]?.riskScore || 0`), then
`Math.round(avgScore * 0.6 + maxScore * 0.4)`. -/
def overallScoreOf (tokenRisks : List TokenRisk) : ℤ :=
  let avgScore : ℚ :=
    if 0 < tokenRisks.length then
      ((tokenRisks.map TokenRisk.riskScore).sum : ℚ) / (tokenRisks.length : ℚ)
    else 0
  let maxScore : ℤ := match tokenRisks with | [] => 0 | t :: _ => t.riskScore
  round (avgScore * (6 / 10) + (maxScore : ℚ) * (4 / 10))

/-- The risk-level step function inside src/analyzer.ts `buildRiskReport`. -/
def riskLevelOf (overallRiskScore : ℤ) : RiskLevel :=
  if 70 ≤ overallRiskScore then RiskLevel.CRITICAL
  else if 50 ≤ overallRiskScore then RiskLevel.HIGH
  else if 30 ≤ overallRiskScore then RiskLevel.MEDIUM
  else RiskLevel.LOW

/-- src/analyzer.ts `buildRecommendations`. -/
def buildRecommendations (tokenRisks : List TokenRisk) (overallScore : ℤ) : List Advisory :=
  let highRisk := tokenRisks.filter fun t => decide (70 ≤ t.riskScore)
  let unverified := tokenRisks.filter fun t => !t.isContractVerified
  let lowLiquidity := tokenRisks.filter fun t =>
    decide (t.liquidityUsd < 50000) && decide (0 < t.liquidityUsd)
  let concentrated := tokenRisks.filter fun t => decide (50 < t.portfolioPercentage)
  (if highRisk.isEmpty then [] else [Advisory.reduceHighRisk (highRisk.map TokenRisk.symbol)]) ++
  (if unverified.isEmpty then []
   else [Advisory.unverifiedContracts unverified.length (unverified.map TokenRisk.symbol)]) ++
  (if lowLiquidity.isEmpty then [] else [Advisory.lowLiquidityExit (lowLiquidity.map TokenRisk.symbol)]) ++
  (match concentrated with
   | [] => []
   | c :: _ => [Advisory.diversify c.symbol (round c.portfolioPercentage)]) ++
  (if overallScore < 30 then [Advisory.looksSafe] else [])

/-- src/analyzer.ts `buildSummary` (string template abstracted; the
`[...tokenRisks].sort(...)[0]` top-risk selection is kept). -/
def buildSummary (walletAddress : String) (riskLevel : RiskLevel) (overallScore : ℤ)
    (tokenRisks : List TokenRisk) : Summary :=
  Summary.standard walletAddress riskLevel overallScore tokenRisks.length
    ((sortDesc TokenRisk.riskScore tokenRisks).head?.map fun t => (t.symbol, t.riskScore))

/-- src/analyzer.ts `buildRiskReport`. -/
def buildRiskReport (walletAddress : String) (chainId : ℕ) (chainName : String) (now : String)
    (holdings : List TokenHolding) (dexDataMap : String → Option DexTokenData)
    (verifiedMap : String → Option Bool) (estimatedPortfolioUsd : ℚ) : RiskReport :=
  -- Build per-token risks, then sort by risk score descending
  let sorted := sortDesc TokenRisk.riskScore
    (tokenRisksOf holdings dexDataMap verifiedMap estimatedPortfolioUsd)
  let overallRiskScore := overallScoreOf sorted
  let riskLevel := riskLevelOf overallRiskScore
  { walletAddress := walletAddress
    analyzedAt := now
    chainId := chainId
    chainName := chainName
    totalTokensFound := holdings.length
    estimatedPortfolioUsd := estimatedPortfolioUsd
    overallRiskScore := overallRiskScore
    riskLevel := riskLevel
    tokenRisks := sorted
    flags :=
      { concentrationRisk := sorted.any fun t => decide (50 < t.portfolioPercentage)
        rugPullRisk := sorted.any fun t => !t.isContractVerified && !t.hasLiquidityLock
        lowLiquidityRisk := sorted.any fun t =>
          decide (0 < t.liquidityUsd) && decide (t.liquidityUsd < 50000)
        highVolatilityRisk := sorted.any fun t =>
          decide (30 < t.portfolioPercentage) && decide (50 < t.riskScore) }
    summary := buildSummary walletAddress riskLevel overallRiskScore sorted
    recommendations := buildRecommendations sorted overallRiskScore }

/-- One entry of the DexScreener `pairs` response consumed by
src/dexscreener.ts `getTokenDexData` (only the fields the mapping reads;
optional fields model the `?.` / `|| default` accesses; `parseFloat` of the
price string is abstracted to the parsed value). -/
structure DexPair where
  chainId : String
  liquidity : Option ℚ
  baseTokenSymbol : Option String
  priceUsd : Option ℚ
  marketCap : Option ℚ
  volumeH24 : Option ℚ
  priceChangeH24 : Option ℚ
  url : Option String
  deriving DecidableEq

/-- The pure response-mapping part of src/dexscreener.ts `getTokenDexData`
(lines 38–64): given the parsed `pairs` array (or its absence) and the
target chain, select the best-liquidity pair on that chain and build the
`DexTokenData`, with `hasLiquidityLock := liquidityUsd > 100_000`. -/
def mapDexResponse (pairs : Option (List DexPair)) (chain : String) : Option DexTokenData :=
  match pairs with
  | none => none
  | some ps =>
    if ps.isEmpty then none
    else
      match sortDesc (fun p => p.liquidity.getD 0) (ps.filter fun p => p.chainId == chain) with
      | [] => none
      | best :: _ =>
        let liquidityUsd := best.liquidity.getD 0
        some
          { symbol := best.baseTokenSymbol.getD ""
            priceUsd := best.priceUsd.getD 0
            liquidityUsd := liquidityUsd
            marketCapUsd := best.marketCap.getD 0
            volume24h := best.volumeH24.getD 0
            priceChange24h := best.priceChangeH24.getD 0
            hasLiquidityLock := decide (100000 < liquidityUsd)
            dexUrl := best.url.getD "" }

/-- src/index.ts `CHAIN_NAMES[chainId] || Chain-fallback`. -/
def chainNameOf (chainId : ℕ) : String :=
  if chainId = 1 then "Ethereum Mainnet"
  else if chainId = 56 then "BNB Smart Chain"
  else if chainId = 137 then "Polygon"
  else "Chain " ++ toString chainId

/-- The canonical empty-wallet report returned by src/index.ts
`analyzeWallet` when zero holdings are found (lines 29–50). -/
def emptyReport (walletAddress : String) (chainId : ℕ) (chainName : String)
    (now : String) : RiskReport :=
  { walletAddress := walletAddress
    analyzedAt := now
    chainId := chainId
    chainName := chainName
    totalTokensFound := 0
    estimatedPortfolioUsd := 0
    overallRiskScore := 0
    riskLevel := RiskLevel.LOW
    tokenRisks := []
    flags :=
      { concentrationRisk := false
        rugPullRisk := false
        lowLiquidityRisk := false
        highVolatilityRisk := false }
    summary := Summary.noHoldings walletAddress
    recommendations := [Advisory.noTokensFound] }

/-- `parseFloat(holding.balance) / Math.pow(10, holding.decimals)` for the
decimal-integer balance strings the collector produces. -/
def rawBalanceOf (holding : TokenHolding) : ℚ :=
  ((holding.balance.toNat?.getD 0 : ℕ) : ℚ) / 10 ^ holding.decimals

/-- The usdValue enrichment performed by the src/index.ts orchestrator
before calling `buildRiskReport`. -/
def enrichHolding (dexDataMap : String → Option DexTokenData) (holding : TokenHolding) :
    TokenHolding :=
  match dexDataMap holding.contractAddress with
  | some dex =>
      if 0 < dex.priceUsd then
        { holding with usdValue := some (rawBalanceOf holding * dex.priceUsd) }
      else holding
  | none => holding

/-- The estimated total portfolio USD accumulated by the same loop. -/
def estimatedUsdOf (dexDataMap : String → Option DexTokenData)
    (holdings : List TokenHolding) : ℚ :=
  (holdings.map fun holding =>
    match dexDataMap holding.contractAddress with
    | some dex => if 0 < dex.priceUsd then rawBalanceOf holding * dex.priceUsd else 0
    | none => 0).sum

/-- Maximum of a list of scores (0 on the empty list, matching the
`tokenRisks[0]?.riskScore || 0` guard). -/
def maxScoreList : List ℤ → ℤ
  | [] => 0
  | s :: l => l.foldl max s

/-- Minimum of a list of scores (0 on the empty list). -/
def minScoreList : List ℤ → ℤ
  | [] => 0
  | s :: l => l.foldl min s

/-- Recognizer for the diversification advisory emitted by
`buildRecommendations`. -/
def isDiversifyAdvisory : Advisory → Bool
  | Advisory.diversify _ _ => true
  | _ => false

/-- Example token risk entry: risk score 80, 55% of portfolio, verified,
locked, healthy liquidity. -/
def tokA : TokenRisk :=
  { symbol := "AAA"
    contractAddress := "0xaaa"
    portfolioPercentage := 55
    liquidityUsd := 200000
    isContractVerified := true
    hasLiquidityLock := true
    riskScore := 80
    flags := [] }

/-- Example token risk entry: risk score 20, 60% of portfolio, verified,
locked, healthy liquidity. -/
def tokB : TokenRisk :=
  { symbol := "BBB"
    contractAddress := "0xbbb"
    portfolioPercentage := 60
    liquidityUsd := 300000
    isContractVerified := true
    hasLiquidityLock := true
    riskScore := 20
    flags := [] }

/-- Example holding whose usdValue is present but equal to 0 (falsy in JS). -/
def zeroUsdHolding : TokenHolding :=
  { contractAddress := "0xccc"
    tokenName := "Zero"
    tokenSymbol := "ZRO"
    balance := "5"
    decimals := 18
    usdValue := some 0 }

/-- Example DexScreener pair on ethereum with $200k liquidity. -/
def samplePair : DexPair :=
  { chainId := "ethereum"
    liquidity := some 200000
    baseTokenSymbol := some "TKN"
    priceUsd := some 1
    marketCap := some 1000000
    volumeH24 := some 5000
    priceChangeH24 := some 2
    url := some "https://dexscreener.com/ethereum/tkn" }

/-- The DexTokenData that `mapDexResponse` produces from `samplePair`. -/
def sampleDex : DexTokenData :=
  { symbol := "TKN"
    priceUsd := 1
    liquidityUsd := 200000
    marketCapUsd := 1000000
    volume24h := 5000
    priceChange24h := 2
    hasLiquidityLock := true
    dexUrl := "https://dexscreener.com/ethereum/tkn" }

/-- Example holding with no USD value attached. -/
def sampleHolding : TokenHolding :=
  { contractAddress := "0xddd"
    tokenName := "Sample"
    tokenSymbol := "SMP"
    balance := "1000"
    decimals := 18
    usdValue := none }

/-- The TokenRisk that `scoreTokenRisk` produces for `sampleHolding` at 100%
of the portfolio with no market data and no verification. -/
def sampleRisk : TokenRisk :=
  { symbol := "SMP"
    contractAddress := "0xddd"
    portfolioPercentage := 100
    liquidityUsd := 0
    isContractVerified := false
    hasLiquidityLock := false
    riskScore := 75
    flags := [TokenFlag.unverifiedContract, TokenFlag.noDexData,
              TokenFlag.extremeConcentration 100] }

/-- Example holding with a present, non-zero USD value. -/
def valuedHolding : TokenHolding :=
  { contractAddress := "0xeee"
    tokenName := "Valued"
    tokenSymbol := "VAL"
    balance := "7"
    decimals := 6
    usdValue := some 50 }

/-- src/index.ts `analyzeWallet`, shallowly embedded after the collector
calls have resolved: the holdings list, the DexScreener map and the
(defaulted) verification map are taken as inputs; the zero-holdings
short-circuit returns the canonical empty report without invoking the
scoring engine. -/
def analyzeWalletCore (walletAddress : String) (chainId : ℕ) (now : String)
    (holdings : List TokenHolding) (dexDataMap : String → Option DexTokenData)
    (verifiedMap : String → Option Bool) : RiskReport :=
  let chainName := chainNameOf chainId
  match holdings with
  | [] => emptyReport walletAddress chainId chainName now
  | h :: hs =>
      let enriched := (h :: hs).map (enrichHolding dexDataMap)
      buildRiskReport walletAddress chainId chainName now enriched dexDataMap verifiedMap
        (estimatedUsdOf dexDataMap (h :: hs))

/-! ### Helper lemmas about the stable descending sort -/

theorem perm_insertDesc {α β : Type} [LinearOrder β] (key : α → β) (x : α) (l : List α) :
    List.Perm (insertDesc key x l) (x :: l) := by
  induction l with
  | nil => simp [insertDesc]
  | cons y l ih =>
      by_cases h : key y ≤ key x
      · simp [insertDesc, h]
      · simp only [insertDesc, if_neg h]
        exact (ih.cons y).trans (List.Perm.swap x y l)

theorem perm_sortDesc {α β : Type} [LinearOrder β] (key : α → β) (l : List α) :
    List.Perm (sortDesc key l) l := by
  induction l with
  | nil => simp [sortDesc]
  | cons x l ih => exact (perm_insertDesc key x (sortDesc key l)).trans (ih.cons x)

theorem pairwise_insertDesc {α β : Type} [LinearOrder β] (key : α → β) (x : α) (l : List α)
    (h : l.Pairwise fun a b => key b ≤ key a) :
    (insertDesc key x l).Pairwise fun a b => key b ≤ key a := by
  induction l with
  | nil => simp [insertDesc]
  | cons y l ih =>
      rcases List.pairwise_cons.mp h with ⟨hy, hl⟩
      by_cases hxy : key y ≤ key x
      · simp only [insertDesc, if_pos hxy]
        refine List.Pairwise.cons ?_ h
        intro b hb
        rcases List.mem_cons.mp hb with rfl | hb
        · exact hxy
        · exact (hy b hb).trans hxy
      · simp only [insertDesc, if_neg hxy]
        refine List.Pairwise.cons ?_ (ih hl)
        intro b hb
        rcases List.mem_cons.mp ((perm_insertDesc key x l).mem_iff.mp hb) with rfl | hb
        · exact le_of_lt (lt_of_not_le hxy)
        · exact hy b hb

theorem pairwise_sortDesc {α β : Type} [LinearOrder β] (key : α → β) (l : List α) :
    (sortDesc key l).Pairwise fun a b => key b ≤ key a := by
  induction l with
  | nil => simp [sortDesc]
  | cons x l ih => exact pairwise_insertDesc key x (sortDesc key l) ih

theorem filter_insertDesc {α β : Type} [LinearOrder β] (key : α → β) (x : α) (c : β)
    (l : List α) :
    (insertDesc key x l).filter (fun a => decide (key a = c)) =
      if key x = c then x :: l.filter (fun a => decide (key a = c))
      else l.filter (fun a => decide (key a = c)) := by
  induction l with
  | nil =>
      simp only [insertDesc, List.filter_cons, List.filter_nil]
      by_cases h : key x = c <;> simp [h]
  | cons y l ih =>
      simp only [insertDesc]
      by_cases hxy : key y ≤ key x
      · rw [if_pos hxy]
        simp only [List.filter_cons]
        by_cases hx : key x = c <;> by_cases hy : key y = c <;> simp [hx, hy]
      · rw [if_neg hxy]
        have hlt : key x < key y := lt_of_not_le hxy
        by_cases hy : key y = c
        · have hx : key x ≠ c := by rw [← hy]; exact ne_of_lt hlt
          simp [List.filter_cons, hy, hx, ih]
        · simp [List.filter_cons, hy, ih]

theorem filter_sortDesc {α β : Type} [LinearOrder β] (key : α → β) (c : β) (l : List α) :
    (sortDesc key l).filter (fun a => decide (key a = c)) =
      l.filter (fun a => decide (key a = c)) := by
  induction l with
  | nil => simp [sortDesc]
  | cons x l ih =>
      simp only [sortDesc, filter_insertDesc key x c (sortDesc key l), ih, List.filter_cons]
      by_cases hx : key x = c <;> simp [hx]

theorem sortDesc_head_ub {α β : Type} [LinearOrder β] (key : α → β) (l : List α) (x : α)
    (s : List α) (h : sortDesc key l = x :: s) : ∀ y ∈ l, key y ≤ key x := by
  intro y hy
  have hmem : y ∈ x :: s := h ▸ (perm_sortDesc key l).symm.mem_iff.mp hy
  rcases List.mem_cons.mp hmem with rfl | hmem
  · exact le_refl _
  · have hp := pairwise_sortDesc key l
    rw [h] at hp
    exact (List.pairwise_cons.mp hp).1 y hmem

theorem sortDesc_head_mem {α β : Type} [LinearOrder β] (key : α → β) (l : List α) (x : α)
    (s : List α) (h : sortDesc key l = x :: s) : x ∈ l :=
  (perm_sortDesc key l).mem_iff.mp (h ▸ List.mem_cons_self x s)

theorem sortDesc_length {α β : Type} [LinearOrder β] (key : α → β) (l : List α) :
    (sortDesc key l).length = l.length :=
  (perm_sortDesc key l).length_eq

/-! ### Helper lemmas about list maxima and minima -/

theorem le_foldl_max {γ : Type} [LinearOrder γ] (l : List γ) (a : γ) :
    a ≤ l.foldl max a := by
  induction l generalizing a with
  | nil => simp
  | cons x l ih => exact le_trans (le_max_left a x) (ih (max a x))

theorem mem_le_foldl_max {γ : Type} [LinearOrder γ] (l : List γ) (a : γ) :
    ∀ x ∈ l, x ≤ l.foldl max a := by
  induction l generalizing a with
  | nil => simp
  | cons y l ih =>
      intro x hx
      rcases List.mem_cons.mp hx with rfl | hx
      · exact le_trans (le_max_right a x) (le_foldl_max l (max a x))
      · exact ih (max a y) x hx

theorem foldl_max_eq_of_ub {γ : Type} [LinearOrder γ] (l : List γ) (a : γ)
    (h : ∀ x ∈ l, x ≤ a) : l.foldl max a = a := by
  induction l with
  | nil => rfl
  | cons y l ih =>
      rw [List.foldl_cons, max_eq_left (h y (List.mem_cons_self y l))]
      exact ih fun x hx => h x (List.mem_cons_of_mem y hx)

theorem foldl_max_attained {γ : Type} [LinearOrder γ] (l : List γ) (a : γ) :
    l.foldl max a = a ∨ l.foldl max a ∈ l := by
  induction l generalizing a with
  | nil => exact Or.inl rfl
  | cons y l ih =>
      rw [List.foldl_cons]
      rcases ih (max a y) with h | h
      · rw [h]
        rcases max_choice a y with hm | hm
        · rw [hm]; exact Or.inl rfl
        · rw [hm]; exact Or.inr (List.mem_cons_self y l)
      · exact Or.inr (List.mem_cons_of_mem y h)

theorem foldl_min_le {γ : Type} [LinearOrder γ] (l : List γ) (a : γ) :
    l.foldl min a ≤ a := by
  induction l generalizing a with
  | nil => simp
  | cons x l ih => exact le_trans (ih (min a x)) (min_le_left a x)

theorem foldl_min_le_mem {γ : Type} [LinearOrder γ] (l : List γ) (a : γ) :
    ∀ x ∈ l, l.foldl min a ≤ x := by
  induction l generalizing a with
  | nil => simp
  | cons y l ih =>
      intro x hx
      rcases List.mem_cons.mp hx with rfl | hx
      · exact le_trans (foldl_min_le l (min a x)) (min_le_right a x)
      · exact ih (min a y) x hx

theorem foldl_min_attained {γ : Type} [LinearOrder γ] (l : List γ) (a : γ) :
    l.foldl min a = a ∨ l.foldl min a ∈ l := by
  induction l generalizing a with
  | nil => exact Or.inl rfl
  | cons y l ih =>
      rw [List.foldl_cons]
      rcases ih (min a y) with h | h
      · rw [h]
        rcases min_choice a y with hm | hm
        · rw [hm]; exact Or.inl rfl
        · rw [hm]; exact Or.inr (List.mem_cons_self y l)
      · exact Or.inr (List.mem_cons_of_mem y h)

theorem le_maxScoreList (l : List ℤ) (x : ℤ) (hx : x ∈ l) : x ≤ maxScoreList l := by
  cases l with
  | nil => cases hx
  | cons s t =>
      rcases List.mem_cons.mp hx with rfl | hx
      · exact le_foldl_max t x
      · exact mem_le_foldl_max t s x hx

theorem minScoreList_le (l : List ℤ) (x : ℤ) (hx : x ∈ l) : minScoreList l ≤ x := by
  cases l with
  | nil => cases hx
  | cons s t =>
      rcases List.mem_cons.mp hx with rfl | hx
      · exact foldl_min_le t x
      · exact foldl_min_le_mem t s x hx

theorem maxScoreList_mem (s : ℤ) (t : List ℤ) : maxScoreList (s :: t) ∈ s :: t := by
  rcases foldl_max_attained t s with h | h
  · exact List.mem_cons.mpr (Or.inl h)
  · exact List.mem_cons_of_mem s h

theorem minScoreList_mem (s : ℤ) (t : List ℤ) : minScoreList (s :: t) ∈ s :: t := by
  rcases foldl_min_attained t s with h | h
  · exact List.mem_cons.mpr (Or.inl h)
  · exact List.mem_cons_of_mem s h

theorem round_le_round {x y : ℚ} (h : x ≤ y) : round x ≤ round y := by
  rw [round_eq, round_eq]
  exact Int.floor_le_floor (by linarith)

theorem overallScoreOf_cons (x : TokenRisk) (s : List TokenRisk) :
    overallScoreOf (x :: s) =
      round ((((x :: s).map TokenRisk.riskScore).sum : ℚ) / (((x :: s).length : ℕ) : ℚ)
          * (6 / 10) + ((x.riskScore : ℤ) : ℚ) * (4 / 10)) := by
  simp [overallScoreOf]

theorem sortDesc_head_eq_max (l : List TokenRisk) (x : TokenRisk) (s : List TokenRisk)
    (h : sortDesc TokenRisk.riskScore l = x :: s) :
    maxScoreList ((x :: s).map TokenRisk.riskScore) = x.riskScore := by
  have hp := pairwise_sortDesc TokenRisk.riskScore l
  rw [h, List.pairwise_cons] at hp
  simp only [maxScoreList, List.map_cons]
  apply foldl_max_eq_of_ub
  intro y hy
  rcases List.mem_map.mp hy with ⟨t, ht, rfl⟩
  exact hp.1 t ht

theorem sortDesc_cons_of_map {α β γ : Type} [LinearOrder γ] (key : β → γ) (f : α → β)
    (a : α) (l : List α) :
    (sortDesc key ((a :: l).map f)).length = l.length + 1 := by
  rw [sortDesc_length, List.length_map, List.length_cons]

/-! ### Claim theorems -/

set_option maxHeartbeats 1600000 in
/-- C1: `scoreTokenRisk` is total and returns exactly one TokenRisk whose
riskScore is min(100, S), where S sums: 30 if unverified; 25 if MarketData
is absent (and then no liquidity/lock/volatility contribution at all);
otherwise exactly one liquidity-tier contribution (35 below $10k, 20 below
$50k, 5 below $500k, else 0), plus 15 without a liquidity lock, plus 10
when the absolute 24h price change exceeds 30; plus exactly one
concentration contribution (20 if p > 70, else 10 if 50 < p ≤ 70, else 0).
The resulting score always lies in [0, 100]. -/
theorem scoreTokenRisk_additive_clamped (holding : TokenHolding) (portfolioPercent : ℚ)
    (dexData : Option DexTokenData) (isVerified : Bool) :
    (scoreTokenRisk holding portfolioPercent dexData isVerified).riskScore =
      min 100
        ((if isVerified then (0 : ℤ) else 30) +
          (match dexData with
           | none => (25 : ℤ)
           | some dex =>
               (if dex.liquidityUsd < 10000 then (35 : ℤ)
                else if dex.liquidityUsd < 50000 then 20
                else if dex.liquidityUsd < 500000 then 5
                else 0) +
               (if dex.hasLiquidityLock then 0 else 15) +
               (if 30 < |dex.priceChange24h| then 10 else 0)) +
          (if 70 < portfolioPercent then (20 : ℤ)
           else if 50 < portfolioPercent then 10
           else 0)) ∧
    0 ≤ (scoreTokenRisk holding portfolioPercent dexData isVerified).riskScore ∧
    (scoreTokenRisk holding portfolioPercent dexData isVerified).riskScore ≤ 100 := by
  rcases dexData with _ | dex <;> cases isVerified <;> refine ⟨?_, ?_, ?_⟩ <;>
    simp only [scoreTokenRisk] <;> split_ifs <;> decide

/-- C4: the risk level is the deterministic closed-below step function of
the overall score: CRITICAL iff ≥ 70, HIGH iff 50 ≤ _ < 70, MEDIUM iff
30 ≤ _ < 50, LOW iff < 30; in particular 70 ↦ CRITICAL, 69, 50 ↦ HIGH,
49, 30 ↦ MEDIUM, 29, 0 ↦ LOW. -/
theorem riskLevel_step (w : String) (cid : ℕ) (cn nw : String) (hs : List TokenHolding)
    (dm : String → Option DexTokenData) (vm : String → Option Bool) (est : ℚ) :
    (buildRiskReport w cid cn nw hs dm vm est).riskLevel =
      riskLevelOf (buildRiskReport w cid cn nw hs dm vm est).overallRiskScore ∧
    (∀ n : ℤ,
      (riskLevelOf n = RiskLevel.CRITICAL ↔ 70 ≤ n) ∧
      (riskLevelOf n = RiskLevel.HIGH ↔ 50 ≤ n ∧ n < 70) ∧
      (riskLevelOf n = RiskLevel.MEDIUM ↔ 30 ≤ n ∧ n < 50) ∧
      (riskLevelOf n = RiskLevel.LOW ↔ n < 30)) ∧
    riskLevelOf 70 = RiskLevel.CRITICAL ∧ riskLevelOf 69 = RiskLevel.HIGH ∧
    riskLevelOf 50 = RiskLevel.HIGH ∧ riskLevelOf 49 = RiskLevel.MEDIUM ∧
    riskLevelOf 30 = RiskLevel.MEDIUM ∧ riskLevelOf 29 = RiskLevel.LOW ∧
    riskLevelOf 0 = RiskLevel.LOW := by
  refine ⟨?_, ?_, by decide, by decide, by decide, by decide, by decide, by decide, by decide⟩
  · simp only [buildRiskReport]
  intro n
  refine ⟨?_, ?_, ?_, ?_⟩ <;> (simp only [riskLevelOf]; split_ifs <;> simp <;> omega)

/-- C3: each of the four portfolio-level flags of the report is a boolean
OR over the report's TokenRisk entries: concentrationRisk iff some token
has percentage > 50; rugPullRisk iff some single token is unverified and
without liquidity lock; lowLiquidityRisk iff some token has liquidity
strictly between 0 and 50,000; highVolatilityRisk iff some single token
has percentage > 30 and risk score > 50. -/
theorem report_flags_iff (w : String) (cid : ℕ) (cn nw : String) (hs : List TokenHolding)
    (dm : String → Option DexTokenData) (vm : String → Option Bool) (est : ℚ) :
    ((buildRiskReport w cid cn nw hs dm vm est).flags.concentrationRisk = true ↔
      ∃ t ∈ (buildRiskReport w cid cn nw hs dm vm est).tokenRisks,
        50 < t.portfolioPercentage) ∧
    ((buildRiskReport w cid cn nw hs dm vm est).flags.rugPullRisk = true ↔
      ∃ t ∈ (buildRiskReport w cid cn nw hs dm vm est).tokenRisks,
        t.isContractVerified = false ∧ t.hasLiquidityLock = false) ∧
    ((buildRiskReport w cid cn nw hs dm vm est).flags.lowLiquidityRisk = true ↔
      ∃ t ∈ (buildRiskReport w cid cn nw hs dm vm est).tokenRisks,
        0 < t.liquidityUsd ∧ t.liquidityUsd < 50000) ∧
    ((buildRiskReport w cid cn nw hs dm vm est).flags.highVolatilityRisk = true ↔
      ∃ t ∈ (buildRiskReport w cid cn nw hs dm vm est).tokenRisks,
        30 < t.portfolioPercentage ∧ 50 < t.riskScore) := by
  refine ⟨?_, ?_, ?_, ?_⟩ <;>
    simp [buildRiskReport, List.any_eq_true, Bool.and_eq_true, Bool.not_eq_true',
      decide_eq_true_iff, and_comm]

/-- C7: the report's tokenRisks list is the per-token results sorted by
riskScore descending, the sort is a permutation sorted descending, and it
is stable: for every score value the sublist of entries with that score is
exactly the corresponding sublist of the original (input-order) list, so
equal-score entries keep their original relative order. -/
theorem tokenRisks_sorted_stable :
    (∀ (w : String) (cid : ℕ) (cn nw : String) (hs : List TokenHolding)
        (dm : String → Option DexTokenData) (vm : String → Option Bool) (est : ℚ),
      (buildRiskReport w cid cn nw hs dm vm est).tokenRisks =
        sortDesc TokenRisk.riskScore (tokenRisksOf hs dm vm est)) ∧
    (∀ l : List TokenRisk, List.Perm (sortDesc TokenRisk.riskScore l) l) ∧
    (∀ l : List TokenRisk,
      (sortDesc TokenRisk.riskScore l).Pairwise fun a b => b.riskScore ≤ a.riskScore) ∧
    (∀ (l : List TokenRisk) (c : ℤ),
      (sortDesc TokenRisk.riskScore l).filter (fun t => decide (t.riskScore = c)) =
        l.filter (fun t => decide (t.riskScore = c))) := by
  refine ⟨?_, ?_, ?_, ?_⟩
  · intro w cid cn nw hs dm vm est
    simp only [buildRiskReport]
  · intro l
    exact perm_sortDesc TokenRisk.riskScore l
  · intro l
    exact pairwise_sortDesc TokenRisk.riskScore l
  · intro l c
    exact filter_sortDesc TokenRisk.riskScore c l

/-- C8: aggregation is total on the empty list — `buildRiskReport` on zero
holdings yields overallRiskScore 0, riskLevel LOW, all four flags false,
empty tokenRisks and totalTokensFound 0 — and the orchestrator
short-circuits zero holdings to the canonical empty report (score 0, level
LOW, all flags false) without invoking the scoring engine (the `[]` branch
of `analyzeWalletCore` returns `emptyReport` directly). -/
theorem empty_holdings_report (w : String) (cid : ℕ) (cn nw : String)
    (dm : String → Option DexTokenData) (vm : String → Option Bool) (est : ℚ) :
    (buildRiskReport w cid cn nw [] dm vm est).overallRiskScore = 0 ∧
    (buildRiskReport w cid cn nw [] dm vm est).riskLevel = RiskLevel.LOW ∧
    (buildRiskReport w cid cn nw [] dm vm est).flags =
      { concentrationRisk := false, rugPullRisk := false,
        lowLiquidityRisk := false, highVolatilityRisk := false } ∧
    (buildRiskReport w cid cn nw [] dm vm est).tokenRisks = [] ∧
    (buildRiskReport w cid cn nw [] dm vm est).totalTokensFound = 0 ∧
    analyzeWalletCore w cid nw [] dm vm = emptyReport w cid (chainNameOf cid) nw ∧
    (emptyReport w cid (chainNameOf cid) nw).overallRiskScore = 0 ∧
    (emptyReport w cid (chainNameOf cid) nw).riskLevel = RiskLevel.LOW ∧
    (emptyReport w cid (chainNameOf cid) nw).flags =
      { concentrationRisk := false, rugPullRisk := false,
        lowLiquidityRisk := false, highVolatilityRisk := false } := by
  have hscore : overallScoreOf [] = 0 := by simp [overallScoreOf]
  have hnil : sortDesc TokenRisk.riskScore (tokenRisksOf [] dm vm est) = [] := by
    simp [tokenRisksOf, sortDesc]
  have hlevel : riskLevelOf 0 = RiskLevel.LOW := by decide
  refine ⟨?_, ?_, ?_, ?_, ?_, rfl, rfl, rfl, rfl⟩ <;>
    simp [buildRiskReport, hnil, hscore, hlevel]

/-- C10: every DexTokenData produced by the DexScreener response mapping
has hasLiquidityLock true iff the selected best pair's liquidity is
strictly above $100,000; consequently a token marked liquidity-locked has
liquidityUsd > $100,000 and can never fall into the critically-low
(< $10,000) or low (< $50,000) liquidity tiers. -/
theorem dex_lock_implies_liquidity (pairs : Option (List DexPair)) (chain : String)
    (d : DexTokenData) (h : mapDexResponse pairs chain = some d) :
    (d.hasLiquidityLock = true ↔ 100000 < d.liquidityUsd) ∧
    (d.hasLiquidityLock = true →
      100000 < d.liquidityUsd ∧ ¬ d.liquidityUsd < 10000 ∧ ¬ d.liquidityUsd < 50000) := by
  rcases pairs with _ | ps
  · simp [mapDexResponse] at h
  · simp only [mapDexResponse] at h
    by_cases hemp : ps.isEmpty
    · rw [if_pos hemp] at h
      cases h
    · rw [if_neg hemp] at h
      cases hsort : sortDesc (fun p => p.liquidity.getD 0) (ps.filter fun p => p.chainId == chain) with
      | nil =>
          rw [hsort] at h
          cases h
      | cons best rest =>
          rw [hsort] at h
          simp only [Option.some.injEq] at h
          subst h
          simp only [decide_eq_true_iff]
          exact ⟨by trivial, fun hl => ⟨hl, not_lt.mpr (by linarith), not_lt.mpr (by linarith)⟩⟩

/-- Witness for C10 at a concrete DexScreener response. -/
theorem dex_lock_implies_liquidity_witness :
    (sampleDex.hasLiquidityLock = true ↔ 100000 < sampleDex.liquidityUsd) ∧
    (sampleDex.hasLiquidityLock = true →
      100000 < sampleDex.liquidityUsd ∧ ¬ sampleDex.liquidityUsd < 10000 ∧
        ¬ sampleDex.liquidityUsd < 50000) :=
  dex_lock_implies_liquidity (some [samplePair]) "ethereum" sampleDex (by decide)

/-- C2: for every non-empty holdings list the report's overallRiskScore is
the nearest integer to mean(scores) × 0.6 + max(scores) × 0.4 over the
per-token risk scores, and for a single-token portfolio it equals that
token's risk score exactly. -/
theorem overallScore_weighted_mean_max (w : String) (cid : ℕ) (cn nw : String)
    (h0 : TokenHolding) (hs : List TokenHolding)
    (dm : String → Option DexTokenData) (vm : String → Option Bool) (est : ℚ) :
    (buildRiskReport w cid cn nw (h0 :: hs) dm vm est).overallRiskScore =
      round (((((buildRiskReport w cid cn nw (h0 :: hs) dm vm est).tokenRisks.map
              TokenRisk.riskScore).sum : ℚ) /
            ((((buildRiskReport w cid cn nw (h0 :: hs) dm vm est).tokenRisks.map
              TokenRisk.riskScore).length : ℕ) : ℚ)) * (6 / 10) +
          ((maxScoreList ((buildRiskReport w cid cn nw (h0 :: hs) dm vm est).tokenRisks.map
              TokenRisk.riskScore) : ℤ) : ℚ) * (4 / 10)) ∧
    ∀ r : TokenRisk,
      (buildRiskReport w cid cn nw (h0 :: hs) dm vm est).tokenRisks = [r] →
      (buildRiskReport w cid cn nw (h0 :: hs) dm vm est).overallRiskScore = r.riskScore := by
  obtain ⟨x, s, hxs⟩ : ∃ x s,
      sortDesc TokenRisk.riskScore (tokenRisksOf (h0 :: hs) dm vm est) = x :: s := by
    have hlen : (sortDesc TokenRisk.riskScore (tokenRisksOf (h0 :: hs) dm vm est)).length
        = hs.length + 1 := by
      rw [sortDesc_length, tokenRisksOf, List.length_map, List.length_cons]
    cases hh : sortDesc TokenRisk.riskScore (tokenRisksOf (h0 :: hs) dm vm est) with
    | nil => rw [hh] at hlen; simp at hlen
    | cons x s => exact ⟨x, s, rfl⟩
  constructor
  · simp only [buildRiskReport]
    rw [hxs, overallScoreOf_cons, sortDesc_head_eq_max _ x s hxs]
    simp only [List.length_map]
  · intro r hr
    simp only [buildRiskReport] at hr ⊢
    rw [hr, overallScoreOf_cons]
    have hval : ((([r] : List TokenRisk).map TokenRisk.riskScore).sum : ℚ) /
        ((([r] : List TokenRisk).length : ℕ) : ℚ) * (6 / 10) +
        ((r.riskScore : ℤ) : ℚ) * (4 / 10) = ((r.riskScore : ℤ) : ℚ) := by
      simp
      ring
    rw [hval, round_intCast]

/-- Witness for C2 at a single-holding portfolio: the overall score equals
the single token's score (75) exactly. -/
theorem overallScore_weighted_mean_max_witness :
    (buildRiskReport "w" 1 "Ethereum Mainnet" "t" [sampleHolding]
        (fun _ => none) (fun _ => none) 0).overallRiskScore = sampleRisk.riskScore :=
  (overallScore_weighted_mean_max "w" 1 "Ethereum Mainnet" "t" sampleHolding []
      (fun _ => none) (fun _ => none) 0).2 sampleRisk
    (by norm_num [buildRiskReport, tokenRisksOf, portfolioPercentOf, scoreTokenRisk,
      sortDesc, insertDesc, sampleHolding, sampleRisk])

/-- C9: for a non-empty TokenRisk list whose scores lie in [0,100], the
overall risk score lies between the minimum and the maximum per-token
score, and hence itself lies in [0,100]. -/
theorem overallScore_between_min_max (t : TokenRisk) (rest : List TokenRisk)
    (hbound : ∀ s ∈ (t :: rest).map TokenRisk.riskScore, 0 ≤ s ∧ s ≤ 100) :
    minScoreList ((t :: rest).map TokenRisk.riskScore) ≤
      overallScoreOf (sortDesc TokenRisk.riskScore (t :: rest)) ∧
    overallScoreOf (sortDesc TokenRisk.riskScore (t :: rest)) ≤
      maxScoreList ((t :: rest).map TokenRisk.riskScore) ∧
    0 ≤ overallScoreOf (sortDesc TokenRisk.riskScore (t :: rest)) ∧
    overallScoreOf (sortDesc TokenRisk.riskScore (t :: rest)) ≤ 100 := by
  obtain ⟨x, s, hxs⟩ : ∃ x s, sortDesc TokenRisk.riskScore (t :: rest) = x :: s := by
    have hlen := sortDesc_length TokenRisk.riskScore (t :: rest)
    cases hh : sortDesc TokenRisk.riskScore (t :: rest) with
    | nil => rw [hh] at hlen; simp at hlen
    | cons x s => exact ⟨x, s, rfl⟩
  have hperm : List.Perm (x :: s) (t :: rest) := hxs ▸ perm_sortDesc TokenRisk.riskScore (t :: rest)
  have hxmem : x ∈ t :: rest := sortDesc_head_mem TokenRisk.riskScore (t :: rest) x s hxs
  have hxscores : x.riskScore ∈ (t :: rest).map TokenRisk.riskScore :=
    List.mem_map_of_mem TokenRisk.riskScore hxmem
  have hmx : minScoreList ((t :: rest).map TokenRisk.riskScore) ≤ x.riskScore :=
    minScoreList_le _ _ hxscores
  have hxM : x.riskScore ≤ maxScoreList ((t :: rest).map TokenRisk.riskScore) :=
    le_maxScoreList _ _ hxscores
  have hsum : ((x :: s).map TokenRisk.riskScore).sum = ((t :: rest).map TokenRisk.riskScore).sum :=
    (hperm.map TokenRisk.riskScore).sum_eq
  have hlen2 : (x :: s).length = (t :: rest).length := hperm.length_eq
  have hmmem : minScoreList ((t :: rest).map TokenRisk.riskScore) ∈
      (t :: rest).map TokenRisk.riskScore := by
    rw [List.map_cons]
    exact minScoreList_mem _ _
  have hMmem : maxScoreList ((t :: rest).map TokenRisk.riskScore) ∈
      (t :: rest).map TokenRisk.riskScore := by
    rw [List.map_cons]
    exact maxScoreList_mem _ _
  have hm0 : 0 ≤ minScoreList ((t :: rest).map TokenRisk.riskScore) := (hbound _ hmmem).1
  have hM100 : maxScoreList ((t :: rest).map TokenRisk.riskScore) ≤ 100 := (hbound _ hMmem).2
  have hlenpos : (0 : ℚ) < (((t :: rest).length : ℕ) : ℚ) := by
    rw [List.length_cons]
    exact_mod_cast Nat.succ_pos rest.length
  have hsumub : ((t :: rest).map TokenRisk.riskScore).sum ≤
      (((t :: rest).map TokenRisk.riskScore).length : ℤ) *
        maxScoreList ((t :: rest).map TokenRisk.riskScore) := by
    have h1 := List.sum_le_card_nsmul ((t :: rest).map TokenRisk.riskScore)
      (maxScoreList ((t :: rest).map TokenRisk.riskScore))
      (fun y hy => le_maxScoreList _ y hy)
    simpa [nsmul_eq_mul] using h1
  have hsumlb : (((t :: rest).map TokenRisk.riskScore).length : ℤ) *
      minScoreList ((t :: rest).map TokenRisk.riskScore) ≤
      ((t :: rest).map TokenRisk.riskScore).sum := by
    have h1 := List.card_nsmul_le_sum ((t :: rest).map TokenRisk.riskScore)
      (minScoreList ((t :: rest).map TokenRisk.riskScore))
      (fun y hy => minScoreList_le _ y hy)
    simpa [nsmul_eq_mul] using h1
  have havgub : ((((t :: rest).map TokenRisk.riskScore).sum : ℤ) : ℚ) /
      (((t :: rest).length : ℕ) : ℚ) ≤
      ((maxScoreList ((t :: rest).map TokenRisk.riskScore) : ℤ) : ℚ) := by
    rw [div_le_iff₀ hlenpos]
    have h2 : (((t :: rest).map TokenRisk.riskScore).sum : ℚ) ≤
        ((((t :: rest).map TokenRisk.riskScore).length : ℕ) : ℚ) *
          ((maxScoreList ((t :: rest).map TokenRisk.riskScore) : ℤ) : ℚ) := by
      exact_mod_cast hsumub
    rw [List.length_map] at h2
    linarith
  have havglb : ((minScoreList ((t :: rest).map TokenRisk.riskScore) : ℤ) : ℚ) ≤
      ((((t :: rest).map TokenRisk.riskScore).sum : ℤ) : ℚ) /
        (((t :: rest).length : ℕ) : ℚ) := by
    rw [le_div_iff₀ hlenpos]
    have h2 : ((((t :: rest).map TokenRisk.riskScore).length : ℕ) : ℚ) *
        ((minScoreList ((t :: rest).map TokenRisk.riskScore) : ℤ) : ℚ) ≤
        (((t :: rest).map TokenRisk.riskScore).sum : ℚ) := by
      exact_mod_cast hsumlb
    rw [List.length_map] at h2
    linarith
  have hover : overallScoreOf (sortDesc TokenRisk.riskScore (t :: rest)) =
      round ((((t :: rest).map TokenRisk.riskScore).sum : ℚ) /
        (((t :: rest).length : ℕ) : ℚ) * (6 / 10) + ((x.riskScore : ℤ) : ℚ) * (4 / 10)) := by
    rw [hxs, overallScoreOf_cons, hsum, hlen2]
  have hvub : (((t :: rest).map TokenRisk.riskScore).sum : ℚ) /
      (((t :: rest).length : ℕ) : ℚ) * (6 / 10) + ((x.riskScore : ℤ) : ℚ) * (4 / 10) ≤
      ((maxScoreList ((t :: rest).map TokenRisk.riskScore) : ℤ) : ℚ) := by
    have hc : ((x.riskScore : ℤ) : ℚ) ≤
        ((maxScoreList ((t :: rest).map TokenRisk.riskScore) : ℤ) : ℚ) := by
      exact_mod_cast hxM
    linarith
  have hvlb : ((minScoreList ((t :: rest).map TokenRisk.riskScore) : ℤ) : ℚ) ≤
      (((t :: rest).map TokenRisk.riskScore).sum : ℚ) /
      (((t :: rest).length : ℕ) : ℚ) * (6 / 10) + ((x.riskScore : ℤ) : ℚ) * (4 / 10) := by
    have hc : ((minScoreList ((t :: rest).map TokenRisk.riskScore) : ℤ) : ℚ) ≤
        ((x.riskScore : ℤ) : ℚ) := by
      exact_mod_cast hmx
    linarith
  have hro_ub : overallScoreOf (sortDesc TokenRisk.riskScore (t :: rest)) ≤
      maxScoreList ((t :: rest).map TokenRisk.riskScore) := by
    rw [hover]
    have := round_le_round hvub
    rwa [round_intCast] at this
  have hro_lb : minScoreList ((t :: rest).map TokenRisk.riskScore) ≤
      overallScoreOf (sortDesc TokenRisk.riskScore (t :: rest)) := by
    rw [hover]
    have := round_le_round hvlb
    rwa [round_intCast] at this
  exact ⟨hro_lb, hro_ub, le_trans hm0 hro_lb, le_trans hro_ub hM100⟩

/-- Witness for C9 at the two-token list [tokA, tokB] (scores 80, 20). -/
theorem overallScore_between_min_max_witness :
    minScoreList ((tokA :: [tokB]).map TokenRisk.riskScore) ≤
      overallScoreOf (sortDesc TokenRisk.riskScore (tokA :: [tokB])) ∧
    overallScoreOf (sortDesc TokenRisk.riskScore (tokA :: [tokB])) ≤
      maxScoreList ((tokA :: [tokB]).map TokenRisk.riskScore) ∧
    0 ≤ overallScoreOf (sortDesc TokenRisk.riskScore (tokA :: [tokB])) ∧
    overallScoreOf (sortDesc TokenRisk.riskScore (tokA :: [tokB])) ≤ 100 :=
  overallScore_between_min_max tokA [tokB] (by decide)

/-- C5 counterexample: in [tokA, tokB] both tokens have percentage > 50
(55 and 60) and the single diversification advisory names tokA ("AAA",
the first in sorted order) although tokB ("BBB") has the strictly higher
percentage — refuting that the advisory names the highest-percentage
token. -/
theorem diversify_names_first_not_highest :
    buildRecommendations [tokA, tokB] 44 =
      [Advisory.reduceHighRisk ["AAA"],
       Advisory.diversify "AAA" (round tokA.portfolioPercentage)] ∧
    50 < tokA.portfolioPercentage ∧ 50 < tokB.portfolioPercentage ∧
    tokA.portfolioPercentage < tokB.portfolioPercentage ∧
    tokA.symbol = "AAA" ∧ tokB.symbol = "BBB" := by
  refine ⟨?_, by norm_num [tokA], by norm_num [tokB], by norm_num [tokA, tokB], rfl, rfl⟩
  norm_num [buildRecommendations, tokA, tokB]

/-- C5 (amended): whenever some TokenRisk has portfolioPercentage > 50,
`buildRecommendations` emits exactly one diversification advisory, and it
names the FIRST token of the given (risk-score-sorted) list among those
with percentage > 50 — not necessarily the highest-percentage one — with
its percentage rounded to an integer. -/
theorem diversify_first_concentrated (ts : List TokenRisk) (score : ℤ) (c : TokenRisk)
    (rest : List TokenRisk)
    (h : ts.filter (fun t => decide (50 < t.portfolioPercentage)) = c :: rest) :
    (buildRecommendations ts score).filter isDiversifyAdvisory =
      [Advisory.diversify c.symbol (round c.portfolioPercentage)] := by
  simp only [buildRecommendations, h]
  simp [List.filter_append, apply_ite (List.filter isDiversifyAdvisory), isDiversifyAdvisory]

/-- Witness for the amended C5 at [tokA, tokB]. -/
theorem diversify_first_concentrated_witness :
    (buildRecommendations [tokA, tokB] 44).filter isDiversifyAdvisory =
      [Advisory.diversify tokA.symbol (round tokA.portfolioPercentage)] :=
  diversify_first_concentrated [tokA, tokB] 44 tokA [tokB] (by decide)

/-- C6 counterexample: a holding whose usdValue is present but equal to 0,
with positive portfolio total 50 and 2 holdings: the claim's ratio formula
gives 0, but the code (JS falsiness of 0) takes the equal-weight fallback
and yields 50. -/
theorem portfolioPercent_zero_usd_cex :
    zeroUsdHolding.usdValue = some 0 ∧ (0 : ℚ) < 50 ∧
    portfolioPercentOf 50 2 zeroUsdHolding = 50 ∧
    (0 : ℚ) / 50 * 100 = 0 ∧
    portfolioPercentOf 50 2 zeroUsdHolding ≠ (0 : ℚ) / 50 * 100 := by
  refine ⟨rfl, by norm_num, ?_, by norm_num, ?_⟩ <;>
    norm_num [portfolioPercentOf, zeroUsdHolding]

/-- C6 (amended): the portfolio percentage used for scoring equals
(usdValue / total) × 100 whenever total > 0 and the holding's usdValue is
present AND non-zero; it equals the equal weight 100/n whenever total is
not positive, the usdValue is absent, or (by JS falsiness of 0) the
usdValue is present but equal to 0; and the per-token risks produced by
the engine carry exactly these percentages. -/
theorem portfolioPercent_formula (est : ℚ) (n : ℕ) (h : TokenHolding) :
    (∀ v : ℚ, h.usdValue = some v → v ≠ 0 → 0 < est →
      portfolioPercentOf est n h = v / est * 100) ∧
    (h.usdValue = none ∨ h.usdValue = some 0 ∨ ¬ 0 < est →
      portfolioPercentOf est n h = 100 / (n : ℚ)) ∧
    (∀ (holdings : List TokenHolding) (dm : String → Option DexTokenData)
        (vm : String → Option Bool) (est2 : ℚ),
      (tokenRisksOf holdings dm vm est2).map TokenRisk.portfolioPercentage =
        holdings.map (portfolioPercentOf est2 holdings.length)) := by
  refine ⟨?_, ?_, ?_⟩
  · intro v hv hne hpos
    simp [portfolioPercentOf, hv, hpos, hne]
  · intro hc
    rcases hc with hn | h0 | hnp
    · simp [portfolioPercentOf, hn]
    · simp [portfolioPercentOf, h0]
    · rcases hu : h.usdValue with _ | v
      · simp [portfolioPercentOf, hu]
      · simp [portfolioPercentOf, hu, hnp]
  · intro holdings dm vm est2
    simp [tokenRisksOf, List.map_map, Function.comp, scoreTokenRisk]

/-- Witness for the amended C6: ratio branch at (est 200, usd 50) and
fallback branch at est 0. -/
theorem portfolioPercent_formula_witness :
    portfolioPercentOf 200 4 valuedHolding = 50 / 200 * 100 ∧
    portfolioPercentOf 0 4 valuedHolding = 100 / (4 : ℚ) :=
  ⟨(portfolioPercent_formula 200 4 valuedHolding).1 50 rfl (by norm_num) (by norm_num),
   (portfolioPercent_formula 0 4 valuedHolding).2.1 (Or.inr (Or.inr (by norm_num)))⟩

end CryptoRiskAgent
